import Mathlib

/-!
Verification of the document rendering and highlighting pipeline of a blog
repository.  The layout component (`src/components/MDXLayout.tsx`) composes a
page from a current document (`currentPage`), a document collection (`pages`)
and a rendered content tree (`children`); it injects head metadata, decorates
headings with a date element and substitutes code blocks with highlighted
markup produced by the tree-sitter based highlighter.
-/

namespace Blog

/-- One entry of a document outline (`tableOfContents`): a heading title and
its level. -/
structure TocEntry where
  title : String
  level : Nat
  deriving Repr, DecidableEq

/-- Author-declared exports of a document: `title`, `description` and `date`
(a `YYYY-MM-DD` string), each optional. -/
structure Exports where
  title : Option String := none
  description : Option String := none
  date : Option String := none
  deriving Repr, DecidableEq

/-- One document (page) of the collection: its `url`, fallback `name`,
optional `exports` record and optional outline (`tableOfContents`). -/
structure Page where
  url : String
  name : String := ""
  exports : Option Exports := none
  tableOfContents : Option (List TocEntry) := none
  deriving Repr, DecidableEq

/-- A JavaScript runtime error raised during rendering. -/
inductive JsError where
  | typeError : String → JsError
  deriving Repr, DecidableEq

/-- The head/social-card title expression of the layout, line 19 of
`MDXLayout.tsx`: `currentPage.tableOfContents?.[0].title`.  Optional chaining
short-circuits to `undefined` (`none`) when `tableOfContents` is absent; when
it is present but empty, `[0]` is `undefined` and the `.title` access throws a
`TypeError`. -/
def pageTitle (p : Page) : Except JsError (Option String) :=
  match p.tableOfContents with
  | none => .ok none
  | some toc =>
    match toc.head? with
    | none => .error (.typeError "Cannot read properties of undefined (reading title)")
    | some e => .ok (some e.title)

/-- The description expression of lines 20 and 22:
`currentPage?.exports?.description`. -/
def pageDescription (p : Page) : Option String :=
  p.exports.bind Exports.description

/-- The date expression of line 39: `currentPage.exports?.date`. -/
def pageDate (p : Page) : Option String :=
  p.exports.bind Exports.date

/-- A head-level tag of the composed page.  An `Option String` content of
`none` models a React attribute bound to `undefined`: the attribute is dropped
but the tag itself is still emitted. -/
inductive HeadTag where
  | metaCharset
  | metaViewport
  | pageTitleTag (text : Option String)
  | metaNamed (nm : String) (content : Option String)
  | metaProp (prop : String) (content : Option String)
  deriving Repr, DecidableEq

/-- The head of the composed page, lines 16-26 of `MDXLayout.tsx`.  Every tag
is emitted unconditionally; absent metadata only makes the corresponding
attribute `undefined`. -/
def headTags (p : Page) (t : Option String) : List HeadTag :=
  [ .metaCharset,
    .metaViewport,
    .pageTitleTag t,
    .metaNamed "description" (pageDescription p),
    .metaProp "og:title" t,
    .metaProp "og:description" (pageDescription p),
    .metaProp "og:url" (some ("https://devongovett.me" ++ p.url)),
    .metaNamed "twitter:card" (some "summary"),
    .metaNamed "twitter:site" (some "@devongovett") ]

/-- JavaScript string concatenation `x + 'T00:00'` where `x` may be
`undefined` (which coerces to the string `"undefined"`). -/
def jsDateConcat (d : Option String) : String :=
  (match d with | none => "undefined" | some s => s) ++ "T00:00"

/-- The numeric value of a digit character. -/
def digitVal (c : Char) : Nat :=
  c.toNat - '0'.toNat

/-- Parse a `YYYY-MM-DDT00:00` string into `(year, month, day)`, as the
JavaScript `Date` constructor does for the shape produced by line 39 (the
date string with `'T00:00'` appended); anything else is an invalid date
(`none`). -/
def parseYMD (s : String) : Option (Nat × Nat × Nat) :=
  match s.data with
  | [y1, y2, y3, y4, '-', m1, m2, '-', d1, d2, 'T', '0', '0', ':', '0', '0'] =>
    if [y1, y2, y3, y4, m1, m2, d1, d2].all Char.isDigit then
      let y := ((digitVal y1 * 10 + digitVal y2) * 10 + digitVal y3) * 10 + digitVal y4
      let m := digitVal m1 * 10 + digitVal m2
      let d := digitVal d1 * 10 + digitVal d2
      if 1 ≤ m && m ≤ 12 && 1 ≤ d && d ≤ 31 then some (y, m, d) else none
    else none
  | _ => none

/-- Line 39 of `MDXLayout.tsx`:
`new Date(currentPage.exports?.date + 'T00:00').toLocaleDateString()`.
An unparseable argument yields an invalid date, whose
`toLocaleDateString()` is the string `"Invalid Date"`. -/
def dateDisplay (d : Option String) : String :=
  match parseYMD (jsDateConcat d) with
  | none => "Invalid Date"
  | some (y, m, dd) => toString m ++ "/" ++ toString dd ++ "/" ++ toString y

/-- The grammars of the tree-sitter highlighter registry
(`treeSitter.Language`). -/
inductive Language where
  | JS | JSX | TS | TSX | DOT
  deriving Repr, DecidableEq

/-- The registry key expression of line 44:
`props.lang?.toUpperCase() || 'JS'`.  An absent tag short-circuits to
`undefined` and an empty string is falsy; both take the `'JS'` branch. -/
def langKey (lang : Option String) : String :=
  match lang with
  | none => "JS"
  | some s => if s = "" then "JS" else String.mk (s.data.map Char.toUpper)

/-- The enum lookup `treeSitter.Language[key]`: `none` models the
`undefined` result for a key that is not a member of the enum. -/
def languageEnum : String → Option Language
  | "JS" => some .JS
  | "JSX" => some .JSX
  | "TS" => some .TS
  | "TSX" => some .TSX
  | "DOT" => some .DOT
  | _ => none

/-- Modelled from the spec: the defaulting inside `treeSitter.highlight`
itself is not part of this repository; per the spec, when the language
argument is absent (the enum lookup produced `undefined`), the highlighter
falls back to the default grammar for general-purpose script syntax (JS). -/
def highlightDefault (l : Option Language) : Language :=
  l.getD .JS

/-- The grammar a code block is actually highlighted with: the registry
lookup of line 44 composed with the highlighter default. -/
def resolveGrammar (lang : Option String) : Language :=
  highlightDefault (languageEnum (langKey lang))

/-! ### Tokenizer / highlight renderer

Modelled from the spec: the lexer and renderer live in the external
`tree-sitter-highlight` package, not under `src/`.  Per the spec, `lex` is a
total pure function whose tokens partition the source text (no gaps, no
overlaps; tokens with no semantic role carry an empty category set), and
`render` maps each token to a span carrying its text and one class per
category, escaping markup-significant characters when serialised. -/

/-- A lexed token: a contiguous run of source characters with zero or more
semantic categories. -/
structure Token where
  text : String
  categories : List String
  deriving Repr, DecidableEq

/-- Character class used to split source text into maximal runs:
identifier/word characters, whitespace, or other. -/
def charClass (c : Char) : Nat :=
  if c.isAlphanum || c = '_' then 0
  else if c = ' ' || c = '\n' || c = '\t' || c = '\r' then 1
  else 2

/-- Split a character list into maximal runs of equal character class.  Every
character lands in exactly one run. -/
def splitRuns : List Char → List (List Char)
  | [] => []
  | c :: cs =>
    match splitRuns cs with
    | [] => [[c]]
    | r :: rs =>
      if r.head?.map charClass = some (charClass c) then (c :: r) :: rs
      else [c] :: r :: rs

/-- Modelled from the spec: the keyword set of each grammar in the registry. -/
def Language.keywords : Language → List String
  | .JS => ["const", "let", "var", "function", "return", "if", "else",
            "import", "export", "from", "new", "class", "await", "async"]
  | .JSX => ["const", "let", "var", "function", "return", "if", "else",
             "import", "export", "from", "new", "class", "await", "async"]
  | .TS => ["const", "let", "var", "function", "return", "if", "else",
            "import", "export", "from", "new", "class", "await", "async",
            "interface", "type"]
  | .TSX => ["const", "let", "var", "function", "return", "if", "else",
             "import", "export", "from", "new", "class", "await", "async",
             "interface", "type"]
  | .DOT => ["digraph", "graph", "subgraph", "node", "edge"]

/-- Modelled from the spec: assign the semantic categories of one token under
one grammar; a token with no recognized role has an empty category set. -/
def categorize (g : Language) (t : String) : List String :=
  if t ∈ g.keywords then ["keyword"]
  else if t ≠ "" && t.all Char.isDigit then ["number"]
  else []

/-- Modelled from the spec: `lex(sourceText, languageTag)` — split the source
into maximal runs and tag each with its categories under the grammar the tag
resolves to.  Total and pure; the token texts partition the source. -/
def lex (sourceText : String) (languageTag : Option String) : List Token :=
  (splitRuns sourceText.data).map
    (fun r => ⟨String.mk r, categorize (resolveGrammar languageTag) (String.mk r)⟩)

/-- One rendered markup span: the classes on the wrapping element (empty for
plain text) and the text content. -/
structure Span where
  classes : List String
  text : String
  deriving Repr, DecidableEq

/-- Modelled from the spec: `render(tokens)` — each token becomes one span
carrying one class per category; tokens with no categories render as plain
text (an empty class list). -/
def render (tokens : List Token) : List Span :=
  tokens.map (fun t => ⟨t.categories, t.text⟩)

/-- Escape markup-significant characters of text content. -/
def htmlEscape (s : String) : String :=
  s.data.foldr
    (fun c acc =>
      (if c = '&' then "&amp;"
       else if c = '<' then "&lt;"
       else if c = '>' then "&gt;"
       else String.mk [c]) ++ acc) ""

/-- Serialise rendered spans to a markup string (the `__html` value). -/
def spansToHtml (spans : List Span) : String :=
  spans.foldr
    (fun sp acc =>
      (if sp.classes = [] then htmlEscape sp.text
       else "<span class=\x22" ++ String.intercalate " " sp.classes ++ "\x22>"
            ++ htmlEscape sp.text ++ "</span>") ++ acc) ""

/-- The text content of rendered spans, in order, markup ignored. -/
def spansText (spans : List Span) : String :=
  spans.foldr (fun sp acc => sp.text ++ acc) ""

/-! ### Layout composition

`Layout` (lines 13-54 of `MDXLayout.tsx`) composes the page: head tags,
a fixed header, and the article obtained by re-rendering `children` with the
`h1` and `CodeBlock` component overrides of lines 34-48. -/

/-- A node of the MDX-rendered document tree handed to `Layout` as
`children`: headings, code blocks (raw text plus optional language tag),
plain text and generic elements. -/
inductive Node where
  | h1 (text : String)
  | codeBlock (lang : Option String) (code : String)
  | text (s : String)
  | elem (tag : String) (children : List Node)
  deriving Repr

/-- A node of the composed output tree.  `time` carries the `dateTime`
attribute (absent when bound to `undefined`) and its text; `pre` carries the
spread `lang` prop and the `__html` markup of its inner `code` element. -/
inductive RNode where
  | elem (tag : String) (children : List RNode)
  | time (dateTime : Option String) (text : String)
  | pre (lang : Option String) (html : String)
  | text (s : String)
  | anchor (href : String) (text : String)
  | img (src : String) (cls : String)
  deriving Repr

/-- The `CodeBlock` override of lines 42-46: a `pre` wrapping a `code`
element whose inner markup is the serialised highlight of the raw text under
the grammar the tag resolves to. -/
def codeBlockRender (lang : Option String) (code : String) : RNode :=
  .pre lang (spansToHtml (render (lex code lang)))

/-- The `h1` override of lines 36-41: a fragment of the heading followed by
an unconditional `time` element populated from `currentPage.exports?.date`. -/
def h1Render (p : Page) (t : String) : List RNode :=
  [.elem "h1" [.text t], .time (pageDate p) (dateDisplay (pageDate p))]

mutual

/-- Apply the component overrides of lines 34-48 to one tree node: `h1`
expands to heading-plus-date, code blocks are substituted by highlighted
markup, everything else is preserved with its children transformed. -/
def renderNode (p : Page) : Node → List RNode
  | .h1 t => h1Render p t
  | .codeBlock lang code => [codeBlockRender lang code]
  | .text s => [.text s]
  | .elem tag cs => [.elem tag (renderNodes p cs)]

/-- Transform a sibling list, preserving order. -/
def renderNodes (p : Page) : List Node → List RNode
  | [] => []
  | n :: ns => renderNode p n ++ renderNodes p ns

end

/-- The composed page: head tags and body nodes. -/
structure ComposedPage where
  head : List HeadTag
  body : List RNode
  deriving Repr

/-- The layout component `Layout({children, pages, currentPage})`, lines 13-54.  The `pages` prop
is accepted but never read.  Evaluating the title expression can throw, which
makes the whole render fail for this document. -/
def Layout (pages : List Page) (currentPage : Page) (children : List Node) :
    Except JsError ComposedPage := do
  let t ← pageTitle currentPage
  pure
    { head := headTags currentPage t
      body :=
        [ .elem "header" [.img "avatar.jpg" "avatar", .anchor "/index.html" "Devons Blog"],
          .elem "main" [.elem "article" (renderNodes currentPage children)] ] }

/-! ### Spec-side definitions and navigation builder -/

/-- The display title as the spec words it: the fallback chain
`exports.title → outline[0].title → name` (with an absent/empty `name`
yielding no title).  Stated from the spec to compare against the title
expression actually found in the code (`pageTitle`). -/
def specDisplayTitle (p : Page) : Option String :=
  match p.exports.bind Exports.title with
  | some t => some t
  | none =>
    match (p.tableOfContents.getD []).head? with
    | some e => some e.title
    | none => if p.name = "" then none else some p.name

/-- Lexicographic less-or-equal on character lists, by code point. -/
def charListLe : List Char → List Char → Bool
  | [], _ => true
  | _ :: _, [] => false
  | a :: as, b :: bs =>
    if a.toNat < b.toNat then true
    else if b.toNat < a.toNat then false
    else charListLe as bs

/-- Lexicographic less-or-equal on date strings. -/
def dateLe (a b : String) : Bool :=
  charListLe a.data b.data

/-- Whether one character list leads (is an initial segment of) another. -/
def leads : List Char → List Char → Bool
  | [], _ => true
  | _ :: _, [] => false
  | a :: as, b :: bs => a = b && leads as bs

/-- Whether a document url lies under the designated collection root. -/
def urlUnder (root url : String) : Bool :=
  leads root.data url.data

/-! ### Navigation builder

The `Nav` component is the second document embedded in `src/page.css`
(lines 192-208, after the stylesheet): it filters `pages` to the urls
starting with `/blog`, sorts them with the comparator
`(a, b) => b.exports!.date.localeCompare(a.exports!.date)` (descending by
date), and renders one list row per document with the title chain
`exports?.title ?? tableOfContents?.[0].title ?? name`, an `aria-current`
marker, a date element and a description paragraph. -/

/-- JavaScript string coercion of a possibly-undefined value, as
`localeCompare` applies to its argument: `undefined` becomes the string
`"undefined"`. -/
def jsCoerce (s : Option String) : String :=
  s.getD "undefined"

/-- The `localeCompare` call of the sort comparator, on the code-point order
(the date strings are plain ASCII): negative when the receiver sorts first,
zero on equality, positive otherwise. -/
def localeCompare (s t : String) : Int :=
  if s = t then 0
  else if charListLe s.data t.data then -1 else 1

/-- The sort comparator of line 196:
`(a, b) => b.exports!.date.localeCompare(a.exports!.date)`.  The non-null
assertions are erased at runtime, so an absent `exports` on either side
throws a `TypeError` while evaluating `…exports.date`, and an absent `date`
on the receiver side throws when `.localeCompare` is read off `undefined`;
an absent `date` in argument position is coerced to the string
`"undefined"`. -/
def navCompare (a b : Page) : Except JsError Int :=
  match b.exports with
  | none => .error (.typeError "Cannot read properties of undefined (reading date)")
  | some be =>
    match be.date with
    | none => .error (.typeError "Cannot read properties of undefined (reading localeCompare)")
    | some bd =>
      match a.exports with
      | none => .error (.typeError "Cannot read properties of undefined (reading date)")
      | some ae => .ok (localeCompare bd (jsCoerce ae.date))

/-- Insert one document into a list kept in comparator order, propagating a
comparator throw. -/
def insertSorted (d : Page) : List Page → Except JsError (List Page)
  | [] => .ok [d]
  | e :: es =>
    match navCompare d e with
    | .error err => .error err
    | .ok c =>
      if c < 0 then .ok (d :: e :: es)
      else
        match insertSorted d es with
        | .error err => .error err
        | .ok rest => .ok (e :: rest)

/-- The `.sort(comparator)` call: sort the eligible documents, failing when
the comparator throws on some compared pair. -/
def sortPages : List Page → Except JsError (List Page)
  | [] => .ok []
  | d :: ds =>
    match sortPages ds with
    | .error err => .error err
    | .ok sorted => insertSorted d sorted

/-- One rendered row of the navigation list, lines 197-203: the link url,
the resolved title, the `aria-current` attribute, the date element
(`dateTime` attribute and formatted text) and the description paragraph. -/
structure NavRow where
  url : String
  title : String
  ariaCurrent : Option String
  dateTime : Option String
  dateText : String
  description : Option String
  deriving Repr, DecidableEq

/-- The title expression of line 199:
`page.exports?.title ?? page.tableOfContents?.[0].title ?? page.name`.  An
absent outline short-circuits to `undefined` and falls through to `name`; a
present-but-empty outline throws on the `.title` access. -/
def navTitle (p : Page) : Except JsError String :=
  match p.exports.bind Exports.title with
  | some t => .ok t
  | none =>
    match p.tableOfContents with
    | none => .ok p.name
    | some [] => .error (.typeError "Cannot read properties of undefined (reading title)")
    | some (e :: _) => .ok e.title

/-- Render one navigation row (lines 197-203) for a document. -/
def navRow (current p : Page) : Except JsError NavRow :=
  match navTitle p with
  | .error err => .error err
  | .ok t =>
    .ok { url := p.url
          title := t
          ariaCurrent := if p.url = current.url then some "page" else none
          dateTime := pageDate p
          dateText := dateDisplay (pageDate p)
          description := pageDescription p }

/-- The `.map(page => …)` call over the sorted documents, in order,
propagating a row-level throw. -/
def mapRows (current : Page) : List Page → Except JsError (List NavRow)
  | [] => .ok []
  | p :: ps =>
    match navRow current p with
    | .error err => .error err
    | .ok row =>
      match mapRows current ps with
      | .error err => .error err
      | .ok rest => .ok (row :: rest)

/-- The `Nav({pages, currentPage})` component of `src/page.css` lines
192-208: filter to urls starting with `/blog`, sort by the date comparator,
and render the rows. -/
def Nav (pages : List Page) (currentPage : Page) : Except JsError (List NavRow) :=
  match sortPages (pages.filter fun p => urlUnder "/blog" p.url) with
  | .error err => .error err
  | .ok sorted => mapRows currentPage sorted

/-- The rows of a successfully rendered navigation list (empty on a failed
render). -/
def rowsOf : Except JsError (List NavRow) → List NavRow
  | .ok rs => rs
  | .error _ => []

/-- Descending comparator order between documents, on the coerced date key
the comparator actually compares. -/
def pageGe (a b : Page) : Prop :=
  dateLe (jsCoerce (pageDate b)) (jsCoerce (pageDate a)) = true

/-- Descending date order between rendered navigation rows. -/
def rowGe (a b : NavRow) : Prop :=
  dateLe (jsCoerce b.dateTime) (jsCoerce a.dateTime) = true

/-! ### Observation helpers over the composed output -/

/-- The body of a successfully composed page (empty on a failed render). -/
def bodyOf : Except JsError ComposedPage → List RNode
  | .ok pg => pg.body
  | .error _ => []

/-- The head of a successfully composed page (empty on a failed render). -/
def headOf : Except JsError ComposedPage → List HeadTag
  | .ok pg => pg.head
  | .error _ => []

/-- Whether a render completed without throwing. -/
def renderOk : Except JsError ComposedPage → Bool
  | .ok _ => true
  | .error _ => false

mutual

/-- Count the date (`time`) elements in one output node, nested included. -/
def countTimeNode : RNode → Nat
  | .elem _ cs => countTimeList cs
  | .time _ _ => 1
  | .pre _ _ => 0
  | .text _ => 0
  | .anchor _ _ => 0
  | .img _ _ => 0

/-- Count the date (`time`) elements in an output node list. -/
def countTimeList : List RNode → Nat
  | [] => 0
  | n :: ns => countTimeNode n + countTimeList ns

end

/-- Whether a head tag list carries any description tag (plain or
social-card), whatever its content. -/
def hasDescriptionTag (l : List HeadTag) : Bool :=
  l.any fun t =>
    match t with
    | .metaNamed nm _ => nm = "description"
    | .metaProp pr _ => pr = "og:description"
    | _ => false

/-! ## Supporting lemmas -/

/-- The runs produced by `splitRuns` partition the input: flattening them
gives back the character list. -/
theorem splitRuns_flatten (l : List Char) : (splitRuns l).flatten = l := by
  induction l with
  | nil => rfl
  | cons c cs ih =>
    rw [splitRuns]
    cases h : splitRuns cs with
    | nil =>
      rw [h] at ih
      simp only [List.flatten_nil] at ih
      simp [← ih]
    | cons r rs =>
      rw [h] at ih
      show (if r.head?.map charClass = some (charClass c) then (c :: r) :: rs
            else [c] :: r :: rs).flatten = c :: cs
      simp only [List.flatten_cons] at ih
      by_cases hc : r.head?.map charClass = some (charClass c)
      · rw [if_pos hc]
        simp only [List.flatten_cons, List.cons_append]
        rw [ih]
      · rw [if_neg hc]
        simp only [List.flatten_cons, List.singleton_append]
        rw [ih]

/-- Folding string concatenation over a list of runs concatenates the runs. -/
theorem foldr_mk_flatten (rs : List (List Char)) :
    rs.foldr (fun r acc => String.mk r ++ acc) "" = String.mk rs.flatten := by
  induction rs with
  | nil => rfl
  | cons r rest ih =>
    simp only [List.foldr_cons, List.flatten_cons, ih]
    rfl

/-- Lexicographic comparison of character lists is total. -/
theorem charListLe_total (a b : List Char) :
    charListLe a b = true ∨ charListLe b a = true := by
  induction a generalizing b with
  | nil => exact Or.inl rfl
  | cons x xs ih =>
    cases b with
    | nil => exact Or.inr rfl
    | cons y ys =>
      rcases Nat.lt_trichotomy x.toNat y.toNat with h1 | h1 | h1
      · exact Or.inl (by simp [charListLe, h1])
      · rcases ih ys with h | h
        · exact Or.inl (by simp [charListLe, h1, h])
        · exact Or.inr (by simp [charListLe, h1.symm, h])
      · exact Or.inr (by simp [charListLe, h1])

/-- Lexicographic comparison of character lists is transitive. -/
theorem charListLe_trans (a b c : List Char)
    (hab : charListLe a b = true) (hbc : charListLe b c = true) :
    charListLe a c = true := by
  induction a generalizing b c with
  | nil => rfl
  | cons x xs ih =>
    cases b with
    | nil => simp [charListLe] at hab
    | cons y ys =>
      cases c with
      | nil => simp [charListLe] at hbc
      | cons z zs =>
        rcases Nat.lt_trichotomy x.toNat y.toNat with h1 | h1 | h1
        · rcases Nat.lt_trichotomy y.toNat z.toNat with h2 | h2 | h2
          · simp [charListLe, Nat.lt_trans h1 h2]
          · have hxz : x.toNat < z.toNat := by omega
            simp [charListLe, hxz]
          · simp [charListLe, Nat.lt_asymm h2, h2] at hbc
        · rcases Nat.lt_trichotomy y.toNat z.toNat with h2 | h2 | h2
          · have hxz : x.toNat < z.toNat := by omega
            simp [charListLe, hxz]
          · have hxz : x.toNat = z.toNat := h1.trans h2
            simp only [charListLe, h1, lt_self_iff_false, if_false] at hab
            simp only [charListLe, h2, lt_self_iff_false, if_false] at hbc
            simp only [charListLe, hxz, lt_self_iff_false, if_false]
            exact ih ys zs hab hbc
          · simp [charListLe, Nat.lt_asymm h2, h2] at hbc
        · simp [charListLe, Nat.lt_asymm h1, h1] at hab

/-- Lexicographic comparison of character lists is reflexive. -/
theorem charListLe_refl (l : List Char) : charListLe l l = true := by
  induction l with
  | nil => rfl
  | cons c cs ih => simp [charListLe, ih]

/-- Descending comparator order between documents is transitive. -/
theorem pageGe_trans {a b c : Page} (h1 : pageGe a b) (h2 : pageGe b c) :
    pageGe a c :=
  charListLe_trans _ _ _ h2 h1

/-- A negative comparator result means the first document sorts before the
second: its coerced date key is at least the second's. -/
theorem navCompare_ok_lt (a b : Page) (c : Int)
    (h : navCompare a b = .ok c) (hc : c < 0) : pageGe a b := by
  unfold navCompare at h
  split at h
  · cases h
  · split at h
    · cases h
    · split at h
      · cases h
      · rename_i xb be hbe xd bd hbd xa ae hae
        injection h with h
        unfold localeCompare at h
        by_cases heq : bd = jsCoerce ae.date
        · rw [if_pos heq] at h
          rw [← h] at hc
          exact absurd hc (by simp)
        · rw [if_neg heq] at h
          by_cases hle : charListLe bd.data (jsCoerce ae.date).data = true
          · show dateLe (jsCoerce (pageDate b)) (jsCoerce (pageDate a)) = true
            have hpb : pageDate b = some bd := by simp [pageDate, hbe, hbd]
            have hpa : pageDate a = ae.date := by simp [pageDate, hae]
            rw [hpb, hpa]
            exact hle
          · rw [if_neg hle] at h
            rw [← h] at hc
            exact absurd hc (by simp)

/-- A non-negative comparator result means the second document sorts
before-or-with the first: its coerced date key is at least the first's. -/
theorem navCompare_ok_ge (a b : Page) (c : Int)
    (h : navCompare a b = .ok c) (hc : ¬c < 0) : pageGe b a := by
  unfold navCompare at h
  split at h
  · cases h
  · split at h
    · cases h
    · split at h
      · cases h
      · rename_i xb be hbe xd bd hbd xa ae hae
        injection h with h
        unfold localeCompare at h
        have hpb : pageDate b = some bd := by simp [pageDate, hbe, hbd]
        have hpa : pageDate a = ae.date := by simp [pageDate, hae]
        show dateLe (jsCoerce (pageDate a)) (jsCoerce (pageDate b)) = true
        rw [hpb, hpa]
        by_cases heq : bd = jsCoerce ae.date
        · show charListLe (jsCoerce ae.date).data (jsCoerce (some bd)).data = true
          rw [heq]
          exact charListLe_refl _
        · rw [if_neg heq] at h
          by_cases hle : charListLe bd.data (jsCoerce ae.date).data = true
          · rw [if_pos hle] at h
            rw [← h] at hc
            exact absurd (by decide : (-1 : Int) < 0) hc
          · rcases charListLe_total bd.data (jsCoerce ae.date).data with ht | ht
            · exact absurd ht hle
            · exact ht

/-- Every element of a successful insertion is the inserted document or one
of the originals. -/
theorem insertSorted_mem (d : Page) : ∀ (l s : List Page),
    insertSorted d l = .ok s → ∀ x ∈ s, x = d ∨ x ∈ l := by
  intro l
  induction l with
  | nil =>
    intro s h x hx
    rw [insertSorted] at h
    injection h with h
    subst h
    exact Or.inl (List.mem_singleton.mp hx)
  | cons e es ih =>
    intro s h x hx
    rw [insertSorted] at h
    cases hc : navCompare d e with
    | error err => rw [hc] at h; cases h
    | ok c =>
      rw [hc] at h
      by_cases hlt : c < 0
      · simp only [if_pos hlt] at h
        injection h with h
        subst h
        rcases List.mem_cons.mp hx with rfl | hx
        · exact Or.inl rfl
        · exact Or.inr hx
      · simp only [if_neg hlt] at h
        cases hr : insertSorted d es with
        | error err => rw [hr] at h; cases h
        | ok rest =>
          rw [hr] at h
          injection h with h
          subst h
          rcases List.mem_cons.mp hx with rfl | hx
          · exact Or.inr (List.mem_cons.mpr (Or.inl rfl))
          · rcases ih rest hr x hx with h | h
            · exact Or.inl h
            · exact Or.inr (List.mem_cons.mpr (Or.inr h))

/-- A successful insertion into a comparator-ordered list is
comparator-ordered. -/
theorem insertSorted_pairwise (d : Page) : ∀ (l s : List Page),
    l.Pairwise pageGe → insertSorted d l = .ok s → s.Pairwise pageGe := by
  intro l
  induction l with
  | nil =>
    intro s _ h
    rw [insertSorted] at h
    injection h with h
    subst h
    simp
  | cons e es ih =>
    intro s hp h
    rw [insertSorted] at h
    rw [List.pairwise_cons] at hp
    obtain ⟨he, hes⟩ := hp
    cases hc : navCompare d e with
    | error err => rw [hc] at h; cases h
    | ok c =>
      rw [hc] at h
      by_cases hlt : c < 0
      · simp only [if_pos hlt] at h
        injection h with h
        subst h
        rw [List.pairwise_cons]
        have hde : pageGe d e := navCompare_ok_lt d e c hc hlt
        refine ⟨fun x hx => ?_, List.pairwise_cons.mpr ⟨he, hes⟩⟩
        rcases List.mem_cons.mp hx with rfl | hx
        · exact hde
        · exact pageGe_trans hde (he x hx)
      · simp only [if_neg hlt] at h
        cases hr : insertSorted d es with
        | error err => rw [hr] at h; cases h
        | ok rest =>
          rw [hr] at h
          injection h with h
          subst h
          rw [List.pairwise_cons]
          refine ⟨fun x hx => ?_, ih rest hes hr⟩
          rcases insertSorted_mem d es rest hr x hx with rfl | hx
          · exact navCompare_ok_ge x e c hc hlt
          · exact he x hx

/-- A successful sort leaves the documents in comparator (descending date)
order. -/
theorem sortPages_pairwise : ∀ (l s : List Page),
    sortPages l = .ok s → s.Pairwise pageGe := by
  intro l
  induction l with
  | nil =>
    intro s h
    rw [sortPages] at h
    injection h with h
    subst h
    simp
  | cons d ds ih =>
    intro s h
    rw [sortPages] at h
    cases hs : sortPages ds with
    | error err => rw [hs] at h; cases h
    | ok sorted =>
      rw [hs] at h
      exact insertSorted_pairwise d sorted s (ih sorted hs) h

/-- A successfully rendered row keeps its document's date. -/
theorem navRow_dateTime (current p : Page) (r : NavRow)
    (h : navRow current p = .ok r) : r.dateTime = pageDate p := by
  unfold navRow at h
  cases ht : navTitle p with
  | error err => rw [ht] at h; cases h
  | ok t =>
    rw [ht] at h
    injection h with h
    subst h
    rfl

/-- Every successfully rendered row comes from one of the documents. -/
theorem mapRows_mem (current : Page) : ∀ (s : List Page) (rows : List NavRow),
    mapRows current s = .ok rows → ∀ r ∈ rows, ∃ p ∈ s, navRow current p = .ok r := by
  intro s
  induction s with
  | nil =>
    intro rows h r hr
    rw [mapRows] at h
    injection h with h
    subst h
    cases hr
  | cons p ps ih =>
    intro rows h r hr
    rw [mapRows] at h
    cases hp : navRow current p with
    | error err => rw [hp] at h; cases h
    | ok row =>
      rw [hp] at h
      cases hm : mapRows current ps with
      | error err => rw [hm] at h; cases h
      | ok rest =>
        rw [hm] at h
        injection h with h
        subst h
        rcases List.mem_cons.mp hr with rfl | hr
        · exact ⟨p, List.mem_cons_self p ps, hp⟩
        · obtain ⟨q, hq, hqr⟩ := ih rest hm r hr
          exact ⟨q, List.mem_cons.mpr (Or.inr hq), hqr⟩

/-- Rendering the rows of a comparator-ordered document list yields rows in
descending date order. -/
theorem mapRows_pairwise (current : Page) : ∀ (s : List Page) (rows : List NavRow),
    s.Pairwise pageGe → mapRows current s = .ok rows → rows.Pairwise rowGe := by
  intro s
  induction s with
  | nil =>
    intro rows _ h
    rw [mapRows] at h
    injection h with h
    subst h
    simp
  | cons p ps ih =>
    intro rows hp h
    rw [mapRows] at h
    cases hr : navRow current p with
    | error err => rw [hr] at h; cases h
    | ok row =>
      rw [hr] at h
      cases hm : mapRows current ps with
      | error err => rw [hm] at h; cases h
      | ok rest =>
        rw [hm] at h
        injection h with h
        subst h
        rw [List.pairwise_cons] at hp
        obtain ⟨hphead, hptail⟩ := hp
        rw [List.pairwise_cons]
        refine ⟨fun x hx => ?_, ih rest hptail hm⟩
        obtain ⟨q, hq, hqx⟩ := mapRows_mem current ps rest hm x hx
        show dateLe (jsCoerce x.dateTime) (jsCoerce row.dateTime) = true
        rw [navRow_dateTime current q x hqx, navRow_dateTime current p row hr]
        exact hphead q hq

/-- Transforming a sibling list distributes over append. -/
theorem renderNodes_append (p : Page) (as bs : List Node) :
    renderNodes p (as ++ bs) = renderNodes p as ++ renderNodes p bs := by
  induction as with
  | nil => rfl
  | cons a rest ih =>
    rw [List.cons_append, renderNodes, renderNodes, ih, List.append_assoc]

/-! ## Claims -/

/-- C1 (counterexample): the display title does not resolve via the fallback
chain `exports.title → outline[0].title → name`.  For a document with
`exports.title = "Explicit Title"` and first outline entry `"Intro"`, the
chain yields `"Explicit Title"` but the page title expression yields
`"Intro"`: `exports.title` is never consulted. -/
theorem C1_counterexample :
    pageTitle ⟨"/blog/post", "draft", some ⟨some "Explicit Title", none, none⟩,
        some [⟨"Intro", 1⟩]⟩
      = Except.ok (some "Intro") ∧
    specDisplayTitle ⟨"/blog/post", "draft", some ⟨some "Explicit Title", none, none⟩,
        some [⟨"Intro", 1⟩]⟩
      = some "Explicit Title" ∧
    (some "Intro" : Option String) ≠ some "Explicit Title" :=
  ⟨rfl, by decide, by decide⟩

/-- C1 (amended): whenever the document outline is present and nonempty, the
display title used for the page (head title and social-card title) is the
title of the first outline entry; `exports.title` and `name` are never
consulted. -/
theorem C1_display_title_is_first_outline_entry (p : Page) (e : TocEntry)
    (rest : List TocEntry) (h : p.tableOfContents = some (e :: rest)) :
    pageTitle p = Except.ok (some e.title) := by
  unfold pageTitle
  rw [h]
  rfl

/-- C1 witness: the amended theorem applied to a concrete document. -/
theorem C1_witness :
    (⟨"/w1", "", none, some [⟨"Intro", 1⟩]⟩ : Page).tableOfContents
      = some ((⟨"Intro", 1⟩ : TocEntry) :: []) ∧
    pageTitle ⟨"/w1", "", none, some [⟨"Intro", 1⟩]⟩
      = Except.ok (some (⟨"Intro", 1⟩ : TocEntry).title) :=
  ⟨rfl, C1_display_title_is_first_outline_entry _ ⟨"Intro", 1⟩ [] rfl⟩

/-- C2: for every source text and every language tag (known or unknown),
concatenating the text content of the spans produced by
`render(lex(sourceText, languageTag))` reconstructs the source text
exactly. -/
theorem C2_highlight_round_trip (sourceText : String) (languageTag : Option String) :
    spansText (render (lex sourceText languageTag)) = sourceText := by
  unfold spansText render lex
  rw [List.map_map, List.foldr_map]
  calc (splitRuns sourceText.data).foldr (fun r acc => String.mk r ++ acc) ""
      = String.mk (splitRuns sourceText.data).flatten := foldr_mk_flatten _
    _ = String.mk sourceText.data := by rw [splitRuns_flatten]
    _ = sourceText := rfl

/-- C3: when the language tag is absent, or is not a key of the grammar
registry, highlighting resolves to the default JS grammar and lexes exactly
as the default does; resolution is total, so an unknown tag is never an
error. -/
theorem C3_unknown_language_falls_back_to_JS (languageTag : Option String)
    (h : languageTag = none ∨ languageEnum (langKey languageTag) = none) :
    resolveGrammar languageTag = Language.JS ∧
    ∀ code : String, lex code languageTag = lex code none := by
  have hg : resolveGrammar languageTag = Language.JS := by
    rcases h with rfl | h
    · rfl
    · unfold resolveGrammar highlightDefault
      rw [h]
      rfl
  refine ⟨hg, fun code => ?_⟩
  unfold lex
  rw [hg]
  rfl

/-- C3 witness: the theorem applied to the unknown tag `"nonexistent"`. -/
theorem C3_witness :
    ((some "nonexistent" : Option String) = none ∨
      languageEnum (langKey (some "nonexistent")) = none) ∧
    (resolveGrammar (some "nonexistent") = Language.JS ∧
      ∀ code : String, lex code (some "nonexistent") = lex code none) :=
  ⟨Or.inr (by decide),
   C3_unknown_language_falls_back_to_JS (some "nonexistent") (Or.inr (by decide))⟩

/-- C4 (counterexample): a document with no `exports.date` still gets a date
element.  Composing a dateless document containing one heading produces a
`time` element (with no `dateTime` attribute and the text `"Invalid Date"`),
not an omitted date section. -/
theorem C4_counterexample :
    countTimeList (bodyOf (Layout [] ⟨"/blog/p4", "", none, some [⟨"T", 1⟩]⟩
        [Node.h1 "Hello"])) = 1 ∧
    renderNodes ⟨"/blog/p4", "", none, some [⟨"T", 1⟩]⟩ [Node.h1 "Hello"]
      = [RNode.elem "h1" [RNode.text "Hello"], RNode.time none "Invalid Date"] :=
  ⟨by decide, rfl⟩

/-- C4 (amended): the date element is emitted unconditionally next to every
heading; when `exports.date` is absent, the element carries no `dateTime`
attribute and its text is `"Invalid Date"` (from formatting the invalid date
built out of the undefined value), rather than the date section being
omitted. -/
theorem C4_date_element_always_emitted (p : Page) (t : String)
    (h : pageDate p = none) :
    renderNode p (Node.h1 t)
      = [RNode.elem "h1" [RNode.text t], RNode.time none "Invalid Date"] := by
  show h1Render p t = _
  unfold h1Render
  rw [h]
  rfl

/-- C4 witness: the amended theorem applied to a concrete dateless
document. -/
theorem C4_witness :
    pageDate ⟨"/w4", "", none, none⟩ = none ∧
    renderNode ⟨"/w4", "", none, none⟩ (Node.h1 "W")
      = [RNode.elem "h1" [RNode.text "W"], RNode.time none "Invalid Date"] :=
  ⟨rfl, C4_date_element_always_emitted _ "W" rfl⟩

/-- C5 (counterexample): a document with no `exports.description` still
produces a composed page whose head carries description tags (with the
content attribute absent), not a page with no description tag at all. -/
theorem C5_counterexample :
    pageDescription ⟨"/blog/p5", "", none, some [⟨"T", 1⟩]⟩ = none ∧
    hasDescriptionTag (headOf (Layout [] ⟨"/blog/p5", "", none, some [⟨"T", 1⟩]⟩ []))
      = true :=
  ⟨rfl, by decide⟩

/-- C5 (amended): the description tag and the social-card description tag are
always present in the head; when `exports.description` is absent they are
emitted with no content attribute (content bound to the undefined value)
rather than being omitted. -/
theorem C5_description_tag_always_present (p : Page) (t : Option String)
    (h : pageDescription p = none) :
    HeadTag.metaNamed "description" none ∈ headTags p t ∧
    HeadTag.metaProp "og:description" none ∈ headTags p t := by
  unfold headTags
  rw [h]
  exact ⟨by simp, by simp⟩

/-- C5 witness: the amended theorem applied to a concrete document with no
description. -/
theorem C5_witness :
    pageDescription ⟨"/w5", "", none, none⟩ = none ∧
    (HeadTag.metaNamed "description" none ∈ headTags ⟨"/w5", "", none, none⟩ none ∧
     HeadTag.metaProp "og:description" none ∈ headTags ⟨"/w5", "", none, none⟩ none) :=
  ⟨rfl, C5_description_tag_always_present _ none rfl⟩

/-- C6 (counterexample): a document with no `exports.title`, no outline and an
empty `name` does not raise a reportable error carrying its url — it renders
successfully with no title at all (the title expression silently evaluates to
the undefined value). -/
theorem C6_counterexample :
    pageTitle ⟨"/blog/p6", "", none, none⟩ = Except.ok none ∧
    renderOk (Layout [] ⟨"/blog/p6", "", none, none⟩ []) = true ∧
    headOf (Layout [] ⟨"/blog/p6", "", none, none⟩ [])
      = headTags ⟨"/blog/p6", "", none, none⟩ none :=
  ⟨rfl, rfl, rfl⟩

/-- C6 (amended): when `tableOfContents` is absent, title resolution silently
yields no title and the render succeeds; when `tableOfContents` is present
but empty, the render throws a `TypeError` whose message is a fixed string
that does not carry the document url.  `exports.title` and `name` never
participate. -/
theorem C6_title_error_behavior (p q : Page)
    (hp : p.tableOfContents = none) (hq : q.tableOfContents = some []) :
    pageTitle p = Except.ok none ∧
    pageTitle q = Except.error
      (JsError.typeError "Cannot read properties of undefined (reading title)") := by
  constructor
  · unfold pageTitle
    rw [hp]
  · unfold pageTitle
    rw [hq]
    rfl

/-- C6 witness: the amended theorem applied to two concrete documents. -/
theorem C6_witness :
    ((⟨"/w6a", "", none, none⟩ : Page).tableOfContents = none ∧
     (⟨"/w6b", "", none, some []⟩ : Page).tableOfContents = some []) ∧
    (pageTitle ⟨"/w6a", "", none, none⟩ = Except.ok none ∧
     pageTitle ⟨"/w6b", "", none, some []⟩ = Except.error
       (JsError.typeError "Cannot read properties of undefined (reading title)")) :=
  ⟨⟨rfl, rfl⟩, C6_title_error_behavior _ _ rfl rfl⟩

/-- C7: whenever the navigation component produces a list, its rows are in
descending date order (most recent first), and the three eligible documents
dated 2025-01-01, 2025-06-15 and 2024-12-31 come out in the order
2025-06-15, 2025-01-01, 2024-12-31. -/
theorem C7_nav_sorted_descending :
    (∀ (ps : List Page) (current : Page) (rows : List NavRow),
      Nav ps current = .ok rows → rows.Pairwise rowGe) ∧
    ((rowsOf (Nav
        [ ⟨"/blog/a", "", some ⟨none, none, some "2025-01-01"⟩, none⟩,
          ⟨"/blog/b", "", some ⟨none, none, some "2025-06-15"⟩, none⟩,
          ⟨"/blog/c", "", some ⟨none, none, some "2024-12-31"⟩, none⟩ ]
        ⟨"/blog/a", "", none, none⟩)).map NavRow.url
      = ["/blog/b", "/blog/a", "/blog/c"] ∧
     (rowsOf (Nav
        [ ⟨"/blog/a", "", some ⟨none, none, some "2025-01-01"⟩, none⟩,
          ⟨"/blog/b", "", some ⟨none, none, some "2025-06-15"⟩, none⟩,
          ⟨"/blog/c", "", some ⟨none, none, some "2024-12-31"⟩, none⟩ ]
        ⟨"/blog/a", "", none, none⟩)).map NavRow.dateTime
      = [some "2025-06-15", some "2025-01-01", some "2024-12-31"]) := by
  refine ⟨fun ps current rows h => ?_, by decide, by decide⟩
  unfold Nav at h
  cases hs : sortPages (ps.filter fun p => urlUnder "/blog" p.url) with
  | error err => rw [hs] at h; cases h
  | ok sorted =>
    rw [hs] at h
    exact mapRows_pairwise current sorted rows (sortPages_pairwise _ sorted hs) h

/-- C7 witness: the ordering theorem applied to the concrete three-document
collection, whose render succeeds with the rows in descending date order. -/
theorem C7_witness :
    Nav [ ⟨"/blog/a", "", some ⟨none, none, some "2025-01-01"⟩, none⟩,
          ⟨"/blog/b", "", some ⟨none, none, some "2025-06-15"⟩, none⟩,
          ⟨"/blog/c", "", some ⟨none, none, some "2024-12-31"⟩, none⟩ ]
        ⟨"/blog/a", "", none, none⟩
      = Except.ok
        [ ⟨"/blog/b", "", none, some "2025-06-15", "6/15/2025", none⟩,
          ⟨"/blog/a", "", some "page", some "2025-01-01", "1/1/2025", none⟩,
          ⟨"/blog/c", "", none, some "2024-12-31", "12/31/2024", none⟩ ] ∧
    List.Pairwise rowGe
        [ ⟨"/blog/b", "", none, some "2025-06-15", "6/15/2025", none⟩,
          ⟨"/blog/a", "", some "page", some "2025-01-01", "1/1/2025", none⟩,
          ⟨"/blog/c", "", none, some "2024-12-31", "12/31/2024", none⟩ ] :=
  ⟨rfl,
   C7_nav_sorted_descending.1
     [ ⟨"/blog/a", "", some ⟨none, none, some "2025-01-01"⟩, none⟩,
       ⟨"/blog/b", "", some ⟨none, none, some "2025-06-15"⟩, none⟩,
       ⟨"/blog/c", "", some ⟨none, none, some "2024-12-31"⟩, none⟩ ]
     ⟨"/blog/a", "", none, none⟩
     [ ⟨"/blog/b", "", none, some "2025-06-15", "6/15/2025", none⟩,
       ⟨"/blog/a", "", some "page", some "2025-01-01", "1/1/2025", none⟩,
       ⟨"/blog/c", "", none, some "2024-12-31", "12/31/2024", none⟩ ]
     rfl⟩

/-- C8 (counterexample): date decoration is not limited to the first
top-level heading: composing a document with two top-level headings decorates
both with an adjacent date element. -/
theorem C8_counterexample :
    renderNodes ⟨"/blog/p8", "", some ⟨none, none, some "2025-01-01"⟩, some [⟨"A", 1⟩]⟩
        [Node.h1 "A", Node.h1 "B"]
      = [RNode.elem "h1" [RNode.text "A"], RNode.time (some "2025-01-01") "1/1/2025",
         RNode.elem "h1" [RNode.text "B"], RNode.time (some "2025-01-01") "1/1/2025"] ∧
    countTimeList (bodyOf (Layout []
        ⟨"/blog/p8", "", some ⟨none, none, some "2025-01-01"⟩, some [⟨"A", 1⟩]⟩
        [Node.h1 "A", Node.h1 "B"])) = 2 :=
  ⟨rfl, by decide⟩

/-- C8 (amended): during composition every `h1` heading element, wherever it
occurs in the sibling list, is decorated with an adjacent date element — not
only the first one. -/
theorem C8_every_h1_decorated (p : Page) (before after : List Node) (t : String) :
    renderNodes p (before ++ Node.h1 t :: after)
      = renderNodes p before
        ++ [RNode.elem "h1" [RNode.text t],
            RNode.time (pageDate p) (dateDisplay (pageDate p))]
        ++ renderNodes p after := by
  rw [renderNodes_append, renderNodes, List.append_assoc]
  rfl

/-- C9: the composed output does not depend on the `pages` collection: for
any two values of the `pages` argument, with the same current document and
the same children, `Layout` produces identical output. -/
theorem C9_output_independent_of_pages (ps1 ps2 : List Page) (currentPage : Page)
    (children : List Node) :
    Layout ps1 currentPage children = Layout ps2 currentPage children := rfl

/-- C10: a code block whose language tag is the empty string is treated
exactly like one with an absent tag: the registry key, the resolved grammar
(the default JS grammar) and the resulting lex output all coincide. -/
theorem C10_empty_lang_equals_absent :
    langKey (some "") = langKey none ∧
    resolveGrammar (some "") = Language.JS ∧ resolveGrammar none = Language.JS ∧
    ∀ code : String, lex code (some "") = lex code none :=
  ⟨rfl, rfl, rfl, fun _ => rfl⟩

end Blog
